import Mathlib

/-!
# Verification of `app-config`'s secret-agent module

Shallow embedding of `src/app-config/src/secret-agent.ts` and proofs about
its connection lifecycle: transport resolution (`getAgentOptions`), the
client connection handle returned by `connectAgent` (close / isClosed /
keep-alive timer / RPC calls), the module-level connection pool
(`connectAgentLazy`, `disconnectAgents`), and the server `close` override
installed by `startAgent`.

JavaScript promises are modelled by explicit state passing: each `async`
operation becomes a Lean function from a state to a result together with
the successor state; the single-threaded event loop means each synchronous
run-to-completion region of the source is one atomic step here.
-/

namespace SecretAgent

/-- `type ConnectionOptions = { port: number } | { socket: string }` from the
source.  Ports are JS numbers holding integers; we use `Int`. -/
inductive ConnectionOptions
  | port (p : Int)
  | socket (path : String)
  deriving DecidableEq, Repr

/-- The identity used as key of the module-level `clients` map:
`'port' in options ? options.port : options.socket`, a JS `number | string`.
A number and a string are never equal as map keys, which `Sum` preserves. -/
abbrev EndpointKey := Sum Int String

/-- `const id = 'port' in options ? options.port : options.socket` -/
def endpointId : ConnectionOptions → EndpointKey
  | .port p => .inl p
  | .socket s => .inr s

/-- `const defaultPort = 42938` -/
def defaultPort : Int := 42938

/-! ## Settings collaborator and `getAgentOptions`

The persisted-settings collaborator is external (spec §6): a structure with
an optional `secretAgent` record.  The source inspects `settings.secretAgent`,
`'port' in settings.secretAgent` and the truthiness of
`settings.secretAgent.port`, and writes back a merged record.  We model the
record as an optional `port` field (`none` = the key is absent) plus an
opaque bag of other fields that merging must preserve.  A JS number is falsy
exactly when it is `0` (or `NaN`, which we exclude by using `Int`). -/

/-- The `settings.secretAgent` record: `port` key possibly absent, plus
other fields preserved by the `{ ...settings.secretAgent, port: defaultPort }`
spread. -/
structure SecretAgentRecord where
  port : Option Int
  rest : List (String × Int)
  deriving DecidableEq, Repr

/-- The persisted settings object: optional `secretAgent` record plus other
top-level fields preserved by the `{ ...settings, secretAgent: ... }` spread. -/
structure Settings where
  secretAgent : Option SecretAgentRecord
  rest : List (String × Int)
  deriving DecidableEq, Repr

/-- Result of one `getAgentOptions` call: the returned options, the settings
as they stand afterwards, and whether `saveSettings` was invoked. -/
structure AgentOptionsResult where
  options : ConnectionOptions
  settings : Settings
  savedSettings : Bool
  deriving DecidableEq, Repr

/-- The merged settings written by
`saveSettings({ ...settings, secretAgent: { ...settings.secretAgent, port: defaultPort } })`. -/
def saveDefaultPort (settings : Settings) (sa : SecretAgentRecord) : Settings :=
  { settings with secretAgent := some { sa with port := some defaultPort } }

/-- `getAgentOptions(override?)` from the source (lines 278–301): return the
override verbatim; else if the persisted `secretAgent` record has a truthy
`port`, return it; else, if a `secretAgent` record exists, persist the
default port into it and return the default; else return the default
without writing. -/
def getAgentOptions (override : Option ConnectionOptions) (settings : Settings) :
    AgentOptionsResult :=
  match override with
  | some o => ⟨o, settings, false⟩
  | none =>
    match settings.secretAgent with
    | some sa =>
      match sa.port with
      | some p =>
        if p ≠ 0 then ⟨.port p, settings, false⟩
        else ⟨.port defaultPort, saveDefaultPort settings sa, true⟩
      | none => ⟨.port defaultPort, saveDefaultPort settings sa, true⟩
    | none => ⟨.port defaultPort, settings, false⟩

/-! ## Agent client connection (`connectAgent`, lines 143–225)

The handle returned by `connectAgent` closes over four pieces of mutable
state: the chosen `closeTimeoutMs`, the underlying `ws-rpc` client (whose
transport is either open or ended), the local `isClosed` flag, and the
scheduled idle `closeTimeout` (modelled as a flag: is a timeout currently
scheduled).  The underlying client is an external collaborator; per the
spec interface (§4.4, §5) an RPC `call` on an ended transport fails with a
connection-closed error, and a WebSocket `close` on an already-closed
socket is a successful no-op. -/

/-- The JS number passed as `closeTimeoutMs`: a finite duration or
`Infinity` (the source's default for `connectAgent`). -/
inductive Duration
  | ms (n : Nat)
  | infinity
  deriving DecidableEq, Repr

/-- State of one client connection handle. -/
structure Conn where
  closeTimeoutMs : Duration
  /-- the underlying transport has not ended (server & websocket still up) -/
  baseOpen : Bool
  /-- the closed-over `isClosed` variable (set by `close()` and by `onClose`) -/
  isClosedFlag : Bool
  /-- whether a `closeTimeout` is currently scheduled via `setTimeout` -/
  timer : Bool
  deriving DecidableEq, Repr

/-- Errors a client operation can produce. -/
inductive ClientError
  | validation (msg : String)
  | connectionClosed
  | keyNotFound (revision : Int)
  deriving DecidableEq, Repr

/-- `keepAlive` (lines 170–181): clear any scheduled timeout, then — unless
`closeTimeoutMs === Infinity`, in which case return without scheduling —
schedule a fresh close timeout. -/
def keepAlive (c : Conn) : Conn :=
  let c := { c with timer := false }
  match c.closeTimeoutMs with
  | .infinity => c
  | .ms _ => { c with timer := true }

/-- `close()` (lines 184–187): set `isClosed = true`, then `client.close()`.
The underlying close ends the transport and succeeds even when the socket
is already closed (WebSocket close is an idempotent no-op). -/
def Conn.close (c : Conn) : Except ClientError Unit × Conn :=
  (.ok (), { c with isClosedFlag := true, baseOpen := false })

/-- `isClosed()` (lines 188–190). -/
def Conn.isClosed (c : Conn) : Bool := c.isClosedFlag

/-- The collaborator `client.call(...)`: succeeds on an open transport,
fails with a connection-closed error once the transport has ended
(spec §4.4: a call on an ended transport must fail, not hang). -/
def baseCall (c : Conn) : Except ClientError Unit :=
  if c.baseOpen then .ok () else .error .connectionClosed

/-- `ping()` (lines 191–195): `keepAlive()` then `client.call(Ping)`. -/
def ping (c : Conn) : Except ClientError Unit × Conn :=
  let c := keepAlive c
  (baseCall c, c)

/-- `encryptValue(value, symmetricKey)` (lines 215–223): `keepAlive()`,
the Encrypt RPC call, `keepAlive()` again on success. -/
def encryptValue (c : Conn) : Except ClientError Unit × Conn :=
  let c := keepAlive c
  match baseCall c with
  | .error e => (.error e, c)
  | .ok _ => (.ok (), keepAlive c)

/-- JS `text.split(':')` on the character list: splits at every `':'`,
keeping empty segments (`"".split(':')` is `[""]`, `"a:".split(':')` is
`["a", ""]`). -/
def splitOnColon : List Char → List (List Char)
  | [] => [[]]
  | c :: rest =>
    let r := splitOnColon rest
    if c = ':' then [] :: r
    else
      match r with
      | [] => [[c]]
      | h :: t => (c :: h) :: t

/-- JS `s.split(':')` as a list of strings. -/
def jsSplitColon (s : String) : List String :=
  (splitOnColon s.data).map fun l => ⟨l⟩

/-- Whether JS `parseFloat(s)` evaluates to `NaN`: after trimming leading
whitespace and one optional sign, the remainder must begin a valid decimal
literal — `"Infinity"`, a digit, or a dot followed by a digit — otherwise
the result is `NaN`. -/
def jsParseFloatIsNaN (s : String) : Bool :=
  let t := s.data.dropWhile Char.isWhitespace
  let t :=
    match t with
    | '+' :: r => r
    | '-' :: r => r
    | r => r
  !((['I', 'n', 'f', 'i', 'n', 'i', 't', 'y'].isPrefixOf t) ||
    (match t with
     | c :: _ => c.isDigit
     | [] => false) ||
    (match t with
     | '.' :: c :: _ => c.isDigit
     | _ => false))

/-- The `revision` string extracted by `text.split(':')[1]`.  When the split
yields fewer than two segments the JS value is `undefined`, which
`parseFloat` coerces to the string `"undefined"` (and parses to `NaN`). -/
def revisionSegment (text : String) : String :=
  ((jsSplitColon text)[1]?).getD "undefined"

/-- `Number.isNaN(parseFloat(text.split(':')[1]))` — the validation check
in `decryptValue` (lines 199–202). -/
def revisionNotNumeric (text : String) : Bool :=
  jsParseFloatIsNaN (revisionSegment text)

/-- Which collaborators a `decryptValue` invocation reached. -/
structure DecryptCalls where
  /-- `loadEncryptedKey(revisionNumber)` was invoked -/
  loaderInvoked : Bool
  /-- the Decrypt RPC call was issued on the client -/
  rpcIssued : Bool
  deriving DecidableEq, Repr

/-- `decryptValue(text)` (lines 196–214): `keepAlive()`; extract the
revision segment and `parseFloat` it; if the result is `NaN`, throw an
`AppConfigError` (validation error) — before the symmetric-key loader and
before any RPC.  Otherwise invoke the injected `loadEncryptedKey`
(outcome abstracted as `loadKey`), then issue the Decrypt RPC call, then
`keepAlive()` again. -/
def decryptValue (loadKey : Except ClientError Nat) (text : String) (c : Conn) :
    Except ClientError Unit × Conn × DecryptCalls :=
  let c := keepAlive c
  let revision := revisionSegment text
  if jsParseFloatIsNaN revision then
    (.error (.validation
      ("Encrypted value was invalid, revision was not a number (" ++ revision ++ ")")),
     c, ⟨false, false⟩)
  else
    match loadKey with
    | .error e => (.error e, c, ⟨true, false⟩)
    | .ok _ =>
      match baseCall c with
      | .error e => (.error e, c, ⟨true, true⟩)
      | .ok _ => (.ok (), keepAlive c, ⟨true, true⟩)

/-! ### Connection event system

Everything that can happen to one connection handle over time: the caller
issues a call, the scheduled idle timeout fires, the caller closes
explicitly, or the remote end disconnects (which triggers the `onClose`
listener, lines 166–168, setting `isClosed = true`). -/

inductive ConnEvent
  | callPing
  | callDecrypt (loadKey : Except ClientError Nat) (text : String)
  | callEncrypt
  /-- the scheduled `closeTimeout` elapses; its callback (lines 174–180)
  runs `client.close()`, which ends the transport and fires `onClose` -/
  | timerFire
  | explicitClose
  | remoteClose

/-- One step of the connection's life. `timerFire` does nothing when no
timeout is scheduled. -/
def stepConn (c : Conn) : ConnEvent → Conn
  | .callPing => (ping c).2
  | .callDecrypt loadKey text => (decryptValue loadKey text c).2.1
  | .callEncrypt => (encryptValue c).2
  | .timerFire =>
    if c.timer then { c with baseOpen := false, isClosedFlag := true, timer := false }
    else c
  | .explicitClose => (Conn.close c).2
  | .remoteClose => { c with baseOpen := false, isClosedFlag := true }

/-- A whole trace of events. -/
def runConn (c : Conn) (evs : List ConnEvent) : Conn :=
  evs.foldl stepConn c

/-! ## Connection pool (`connectAgentLazy`, lines 227–254)

The module-level `clients` map caches, per endpoint identity, the promise
returned by one `connectAgent(...)` invocation.  We number those
invocations ("attempts"): attempt `a` is the `a`-th `connectAgent` call
ever started, and the pool state records, for each attempt, whether its
promise is still pending (`none`) or has resolved to a connection handle
with a distinct identity and a current `isClosed()` answer.  Because the
event loop is single-threaded and `connectAgentLazy` has no `await`
between its `clients.has`, `connectAgent(...)` and `clients.set` (the
promise is stored before being returned, while still pending), one lookup
is one atomic step. -/

/-- A resolved connection as the pool sees it. -/
structure PoolConn where
  connId : Nat
  closed : Bool
  deriving DecidableEq, Repr

/-- State of the module-level pool. -/
structure PoolState where
  /-- the `clients` map, keyed by endpoint identity -/
  cache : List (EndpointKey × Nat)
  /-- attempt `a`'s promise: `none` while pending, its connection once resolved -/
  attempts : List (Option PoolConn)
  /-- identity source for resolved connections -/
  nextConn : Nat
  deriving DecidableEq, Repr

/-- `clients.get(id)` over the association list. -/
def findClient : List (EndpointKey × Nat) → EndpointKey → Option Nat
  | [], _ => none
  | (k', a) :: rest, k => if k' = k then some a else findClient rest k

/-- `clients.delete(id)`. -/
def removeClient (cache : List (EndpointKey × Nat)) (k : EndpointKey) :
    List (EndpointKey × Nat) :=
  cache.filter fun e => e.1 ≠ k

/-- What `await clients.get(id)` knows about attempt `a`. -/
def statusOf (s : PoolState) (a : Nat) : Option PoolConn :=
  match s.attempts[a]? with
  | some st => st
  | none => none

/-- `connectAgentLazy` (lines 229–254): if the map has no entry for the
identity, start a `connectAgent` attempt, store its (pending) promise and
return it; otherwise await the cached promise — if the resolved connection
reports closed, evict the entry and recurse, else return it.  A pending
promise is returned as-is: every awaiting caller shares its eventual
resolution. -/
def connectAgentLazy (s : PoolState) (k : EndpointKey) : Nat × PoolState :=
  match hfind : findClient s.cache k with
  | none =>
    (s.attempts.length,
     { s with cache := (k, s.attempts.length) :: s.cache,
              attempts := s.attempts ++ [none] })
  | some a =>
    match statusOf s a with
    | none => (a, s)
    | some pc =>
      if pc.closed then
        connectAgentLazy { s with cache := removeClient s.cache k } k
      else (a, s)
termination_by (if findClient s.cache k = none then 0 else 1)
decreasing_by
  have hnone : findClient (removeClient s.cache k) k = none := by
    generalize s.cache = l
    induction l with
    | nil => rfl
    | cons e rest ih =>
      by_cases hek : e.1 = k
      · simpa [removeClient, List.filter_cons, hek] using ih
      · simpa [removeClient, List.filter_cons, hek, findClient] using ih
  simp [hnone, hfind]

/-- The pending promise of attempt `a` resolves to a fresh open connection. -/
def resolveAttempt (s : PoolState) (a : Nat) : PoolState :=
  { s with attempts := s.attempts.set a (some ⟨s.nextConn, false⟩),
           nextConn := s.nextConn + 1 }

/-- Connection `cid` transitions to closed (explicitly, by idle timeout, or
because the remote end disconnected). -/
def closeConn (s : PoolState) (cid : Nat) : PoolState :=
  { s with attempts := s.attempts.map fun st =>
      match st with
      | some pc => if pc.connId = cid then some { pc with closed := true } else some pc
      | none => none }

/-- `n` further `connectAgentLazy` calls for the same identity, collecting
the attempts handed out. -/
def iterateLazy : Nat → PoolState → EndpointKey → List Nat × PoolState
  | 0, s, _ => ([], s)
  | n + 1, s, k =>
    let r := connectAgentLazy s k
    let rest := iterateLazy n r.2 k
    (r.1 :: rest.1, rest.2)

/-! ## `disconnectAgents` (lines 256–264) -/

/-- A cached promise as `disconnectAgents` observes it: the connection
attempt rejected, or resolved to a handle whose `close()` either resolves
or rejects. -/
inductive CachedClient
  | rejected
  | conn (closeFails : Bool)
  deriving DecidableEq, Repr

inductive DisconnectEvent
  | evicted (k : EndpointKey)
  | closed (k : EndpointKey)
  deriving DecidableEq, Repr

/-- `disconnectAgents()`: for each map entry in order, `clients.delete(port)`
then `await client.then((c) => c.close(), () => {})`.  The second `then`
handler swallows a rejected *connection attempt*; a rejection coming from
`c.close()` is adopted by the `then` promise and thrown by the `await`,
ending the loop.  Returns the event trace, the overall outcome, and the
entries the loop never reached (which stay in the map). -/
def disconnectAgents :
    List (EndpointKey × CachedClient) →
    List DisconnectEvent × Except Unit Unit × List (EndpointKey × CachedClient)
  | [] => ([], .ok (), [])
  | (k, cl) :: rest =>
    match cl with
    | .rejected =>
      let r := disconnectAgents rest
      (.evicted k :: r.1, r.2.1, r.2.2)
    | .conn closeFails =>
      if closeFails then ([.evicted k], .error (), rest)
      else
        let r := disconnectAgents rest
        (.evicted k :: .closed k :: r.1, r.2.1, r.2.2)

/-! ## Server close override (`startAgent`, lines 77–93 and 102–116)

`startAgent` creates the raw `http`/`https` server manually, wraps it in a
`WebSocket.Server` handed to the ws-rpc `Server`, and patches the server's
`close` with `Object.assign` so that it awaits the base close and then
closes the raw listener itself. -/

/-- The manually created raw Node listener.  Its `close(cb)` stops
listening and calls back; per Node's documented behaviour it calls back
with an `ERR_SERVER_NOT_RUNNING` error when the server was not running;
`closeErr` injects an arbitrary other callback failure. -/
structure RawHttpServer where
  listening : Bool
  closeErr : Option String
  deriving DecidableEq, Repr

/-- `httpServer.close((err) => ...)` — external collaborator (Node). -/
def rawServerClose (h : RawHttpServer) : Except String RawHttpServer :=
  if h.listening then
    match h.closeErr with
    | some e => .error e
    | none => .ok { h with listening := false }
  else .error "Server is not running."

/-- The `Server` returned by `startAgent`: the ws-rpc RPC layer plus the
raw listener the patched `close` must also tear down. -/
structure AgentServer where
  rpcOpen : Bool
  http : RawHttpServer
  deriving DecidableEq, Repr

inductive ServerCloseEvent
  | rpcClosed
  | listenerClosed
  deriving DecidableEq, Repr

/-- `superClose` — the bound ws-rpc `BaseServer.close` (external
collaborator): closes the RPC layer so in-flight calls drain, succeeds. -/
def superClose (s : AgentServer) : AgentServer × List ServerCloseEvent :=
  ({ s with rpcOpen := false }, [.rpcClosed])

/-- The patched `close` installed in the port/TLS branch (lines 79–91):
`await superClose()`, then close the raw https server, rejecting when the
listener close calls back with an error. -/
def serverClosePort (s : AgentServer) :
    Except String AgentServer × List ServerCloseEvent :=
  let r := superClose s
  match rawServerClose r.1.http with
  | .error e => (.error e, r.2)
  | .ok h => (.ok { r.1 with http := h }, r.2 ++ [.listenerClosed])

/-- The patched `close` installed in the unix-socket branch (lines 104–116):
textually the same sequencing over the raw http server. -/
def serverCloseSocket (s : AgentServer) :
    Except String AgentServer × List ServerCloseEvent :=
  let r := superClose s
  match rawServerClose r.1.http with
  | .error e => (.error e, r.2)
  | .ok h => (.ok { r.1 with http := h }, r.2 ++ [.listenerClosed])

end SecretAgent

namespace SecretAgent

/-- C4: With no override, a truthy persisted port is returned without a
write; a `secretAgent` record without a (truthy) port gets the default port
persisted into it and the default returned; no record at all yields the
default with no write. -/
theorem getAgentOptions_resolution (settings : Settings) :
    (∀ sa p, settings.secretAgent = some sa → sa.port = some p → p ≠ 0 →
      getAgentOptions none settings = ⟨.port p, settings, false⟩) ∧
    (∀ sa, settings.secretAgent = some sa → sa.port = none →
      getAgentOptions none settings =
        ⟨.port 42938,
         { settings with secretAgent := some { sa with port := some 42938 } },
         true⟩) ∧
    (settings.secretAgent = none →
      getAgentOptions none settings = ⟨.port 42938, settings, false⟩) := by
  refine ⟨?_, ?_, ?_⟩
  · intro sa p hsa hp hne
    simp [getAgentOptions, hsa, hp, hne]
  · intro sa hsa hp
    simp [getAgentOptions, hsa, hp, saveDefaultPort, defaultPort]
  · intro hnone
    simp [getAgentOptions, hnone, defaultPort]

/-- Witness for C4: all three branches evaluated at concrete settings. -/
theorem getAgentOptions_resolution_witness :
    getAgentOptions none ⟨some ⟨some 9000, [("a", 1)]⟩, [("b", 2)]⟩ =
      ⟨.port 9000, ⟨some ⟨some 9000, [("a", 1)]⟩, [("b", 2)]⟩, false⟩ ∧
    getAgentOptions none ⟨some ⟨none, [("a", 1)]⟩, [("b", 2)]⟩ =
      ⟨.port 42938, ⟨some ⟨some 42938, [("a", 1)]⟩, [("b", 2)]⟩, true⟩ ∧
    getAgentOptions none ⟨none, [("b", 2)]⟩ =
      ⟨.port 42938, ⟨none, [("b", 2)]⟩, false⟩ := by
  refine ⟨?_, ?_, ?_⟩
  · exact (getAgentOptions_resolution _).1 _ _ rfl rfl (by decide)
  · exact (getAgentOptions_resolution _).2.1 ⟨none, [("a", 1)]⟩ rfl rfl
  · exact (getAgentOptions_resolution _).2.2 rfl

/-- C10: a present-but-falsy `port` (e.g. `port: 0`) is treated as
unconfigured: the default port is persisted over it (other fields of the
record kept) and the default is returned. -/
theorem getAgentOptions_falsy_port (settings : Settings) (sa : SecretAgentRecord)
    (hsa : settings.secretAgent = some sa) (hp : sa.port = some 0) :
    getAgentOptions none settings =
      ⟨.port 42938,
       { settings with secretAgent := some { sa with port := some 42938 } },
       true⟩ := by
  simp [getAgentOptions, hsa, hp, saveDefaultPort, defaultPort]

/-- Witness for C10 at settings `{secretAgent: {port: 0, keep: 7}}`. -/
theorem getAgentOptions_falsy_port_witness :
    getAgentOptions none ⟨some ⟨some 0, [("keep", 7)]⟩, []⟩ =
      ⟨.port 42938, ⟨some ⟨some 42938, [("keep", 7)]⟩, []⟩, true⟩ :=
  getAgentOptions_falsy_port _ _ rfl rfl

/-- C2: for every ciphertext, loader outcome and connection state,
`decryptValue` fails with a validation error without invoking the
symmetric-key loader and without issuing any RPC call exactly when the
second colon-separated segment of the ciphertext is not numeric (JS
`parseFloat` of it is `NaN`); in particular the segment of
`"scheme:abc:payload"` is not numeric, so that call fails before
contacting the server. -/
theorem decryptValue_validation :
    (∀ (loadKey : Except ClientError Nat) (text : String) (c : Conn),
      ((∃ msg, (decryptValue loadKey text c).1 = Except.error (.validation msg)) ∧
        (decryptValue loadKey text c).2.2.loaderInvoked = false ∧
        (decryptValue loadKey text c).2.2.rpcIssued = false) ↔
      revisionNotNumeric text = true) ∧
    revisionNotNumeric "scheme:abc:payload" = true := by
  constructor
  · intro loadKey text c
    unfold decryptValue revisionNotNumeric
    cases h : jsParseFloatIsNaN (revisionSegment text) with
    | true => simp [h]
    | false =>
      cases loadKey with
      | error e => simp [h]
      | ok k => cases hb : baseCall (keepAlive c) <;> simp [h, hb]
  · rfl

/-- Witness for C2: `decryptValue` on `"scheme:abc:payload"` fails with a
validation error, with neither the loader nor the RPC layer reached. -/
theorem decryptValue_validation_witness :
    (∃ msg,
      (decryptValue (Except.ok 0) "scheme:abc:payload"
        ⟨Duration.infinity, true, false, false⟩).1 =
        Except.error (.validation msg)) ∧
    (decryptValue (Except.ok 0) "scheme:abc:payload"
      ⟨Duration.infinity, true, false, false⟩).2.2.loaderInvoked = false ∧
    (decryptValue (Except.ok 0) "scheme:abc:payload"
      ⟨Duration.infinity, true, false, false⟩).2.2.rpcIssued = false :=
  (decryptValue_validation.1 _ _ _).mpr decryptValue_validation.2

/-- C8: after `close()` — which itself succeeds — `isClosed()` is true,
every RPC-issuing call (`ping`, `decryptValue` past its validation and key
loading, `encryptValue`) fails with a connection-closed error, and a second
`close()` is a no-op returning successfully. -/
theorem keepAlive_closeTimeoutMs (c : Conn) :
    (keepAlive c).closeTimeoutMs = c.closeTimeoutMs := by
  cases h : c.closeTimeoutMs <;> simp [keepAlive, h]

theorem keepAlive_baseOpen (c : Conn) : (keepAlive c).baseOpen = c.baseOpen := by
  cases h : c.closeTimeoutMs <;> simp [keepAlive, h]

theorem keepAlive_isClosedFlag (c : Conn) :
    (keepAlive c).isClosedFlag = c.isClosedFlag := by
  cases h : c.closeTimeoutMs <;> simp [keepAlive, h]

theorem keepAlive_timer_infinity (c : Conn) (h : c.closeTimeoutMs = .infinity) :
    (keepAlive c).timer = false := by
  simp [keepAlive, h]

theorem connection_close_semantics (c : Conn) (loadKey : Except ClientError Nat)
    (text : String) (k : Nat)
    (hnum : revisionNotNumeric text = false) (hload : loadKey = .ok k) :
    (Conn.close c).1 = .ok () ∧
    (Conn.close c).2.isClosed = true ∧
    (ping (Conn.close c).2).1 = .error .connectionClosed ∧
    (decryptValue loadKey text (Conn.close c).2).1 = .error .connectionClosed ∧
    (encryptValue (Conn.close c).2).1 = .error .connectionClosed ∧
    Conn.close (Conn.close c).2 = (.ok (), (Conn.close c).2) := by
  subst hload
  refine ⟨rfl, rfl, ?_, ?_, ?_, ?_⟩
  · simp [ping, baseCall, Conn.close, keepAlive_baseOpen]
  · unfold revisionNotNumeric at hnum
    simp [decryptValue, hnum, baseCall, Conn.close, keepAlive_baseOpen]
  · simp [encryptValue, baseCall, Conn.close, keepAlive_baseOpen]
  · simp [Conn.close]

/-- Witness for C8 at a concrete open connection and the ciphertext
`"k:1:v"` (numeric revision, key loading succeeding). -/
theorem connection_close_semantics_witness :
    revisionNotNumeric "k:1:v" = false ∧
    ((Conn.close ⟨.ms 5, true, false, false⟩).1 = .ok () ∧
      (Conn.close ⟨.ms 5, true, false, false⟩).2.isClosed = true ∧
      (ping (Conn.close ⟨.ms 5, true, false, false⟩).2).1 = .error .connectionClosed ∧
      (decryptValue (.ok 0) "k:1:v" (Conn.close ⟨.ms 5, true, false, false⟩).2).1 =
        .error .connectionClosed ∧
      (encryptValue (Conn.close ⟨.ms 5, true, false, false⟩).2).1 =
        .error .connectionClosed ∧
      Conn.close (Conn.close ⟨.ms 5, true, false, false⟩).2 =
        (.ok (), (Conn.close ⟨.ms 5, true, false, false⟩).2)) :=
  ⟨rfl, connection_close_semantics ⟨.ms 5, true, false, false⟩ (.ok 0) "k:1:v" 0 rfl rfl⟩

/-- `keepAlive` on a connection whose `closeTimeoutMs` is `Infinity` only
clears the timer; it never schedules one. -/
theorem keepAlive_infinity (c : Conn) (h : c.closeTimeoutMs = .infinity) :
    keepAlive c = { c with timer := false } := by
  simp [keepAlive, h]

/-- Any non-close event preserves "infinite timeout, no timer scheduled,
transport open, not closed". -/
theorem stepConn_infinity (c : Conn) (e : ConnEvent)
    (hinf : c.closeTimeoutMs = .infinity) (htimer : c.timer = false)
    (hopen : c.baseOpen = true) (hflag : c.isClosedFlag = false)
    (he1 : e ≠ ConnEvent.explicitClose) (he2 : e ≠ ConnEvent.remoteClose) :
    (stepConn c e).closeTimeoutMs = .infinity ∧ (stepConn c e).timer = false ∧
    (stepConn c e).baseOpen = true ∧ (stepConn c e).isClosedFlag = false := by
  cases e with
  | callPing =>
    simp [stepConn, ping, keepAlive_closeTimeoutMs, keepAlive_baseOpen,
      keepAlive_isClosedFlag, keepAlive_timer_infinity, hinf, hopen, hflag]
  | callDecrypt loadKey text =>
    simp only [stepConn, decryptValue]
    split
    · simp [keepAlive_closeTimeoutMs, keepAlive_baseOpen, keepAlive_isClosedFlag,
        keepAlive_timer_infinity, hinf, hopen, hflag]
    · cases loadKey with
      | error e0 =>
        simp [keepAlive_closeTimeoutMs, keepAlive_baseOpen, keepAlive_isClosedFlag,
          keepAlive_timer_infinity, hinf, hopen, hflag]
      | ok k0 =>
        have hb : baseCall (keepAlive c) = .ok () := by
          simp [baseCall, keepAlive_baseOpen, hopen]
        simp [hb, keepAlive_closeTimeoutMs, keepAlive_baseOpen, keepAlive_isClosedFlag,
          keepAlive_timer_infinity, hinf, hopen, hflag]
  | callEncrypt =>
    have hb : baseCall (keepAlive c) = .ok () := by
      simp [baseCall, keepAlive_baseOpen, hopen]
    simp [stepConn, encryptValue, hb, keepAlive_closeTimeoutMs, keepAlive_baseOpen,
      keepAlive_isClosedFlag, keepAlive_timer_infinity, hinf, hopen, hflag]
  | timerFire => simp [stepConn, htimer, hinf, hopen, hflag]
  | explicitClose => exact absurd rfl he1
  | remoteClose => exact absurd rfl he2

/-- C9: a connection created with `closeTimeoutMs = Infinity` never has an
idle timeout scheduled, so across any trace of calls and (vacuous) timer
firings that contains no explicit `close()` and no remote disconnect, it
stays open: the keep-alive mechanism never closes it. -/
theorem infinity_never_self_closes (c : Conn) (evs : List ConnEvent)
    (hinf : c.closeTimeoutMs = .infinity) (htimer : c.timer = false)
    (hopen : c.baseOpen = true) (hflag : c.isClosedFlag = false)
    (hevs : ∀ e ∈ evs, e ≠ ConnEvent.explicitClose ∧ e ≠ ConnEvent.remoteClose) :
    (runConn c evs).closeTimeoutMs = .infinity ∧ (runConn c evs).timer = false ∧
    (runConn c evs).baseOpen = true ∧ (runConn c evs).isClosedFlag = false := by
  induction evs generalizing c with
  | nil => exact ⟨hinf, htimer, hopen, hflag⟩
  | cons e rest ih =>
    have hrest : ∀ e ∈ rest, e ≠ ConnEvent.explicitClose ∧ e ≠ ConnEvent.remoteClose :=
      fun e he => hevs e (List.mem_cons_of_mem _ he)
    have hstep := stepConn_infinity c e hinf htimer hopen hflag
      (hevs _ (List.mem_cons_self _ _)).1 (hevs _ (List.mem_cons_self _ _)).2
    have hres := ih (stepConn c e) hstep.1 hstep.2.1 hstep.2.2.1 hstep.2.2.2 hrest
    simpa [runConn] using hres

/-- Witness for C9: a concrete infinite-timeout connection stays open and
timerless across a trace of ping, decrypt, vacuous timer fire and encrypt. -/
theorem infinity_never_self_closes_witness :
    (runConn ⟨.infinity, true, false, false⟩
      [.callPing, .callDecrypt (.ok 0) "k:1:v", .timerFire, .callEncrypt]).timer = false ∧
    (runConn ⟨.infinity, true, false, false⟩
      [.callPing, .callDecrypt (.ok 0) "k:1:v", .timerFire, .callEncrypt]).isClosedFlag
      = false := by
  have h := infinity_never_self_closes ⟨.infinity, true, false, false⟩
    [.callPing, .callDecrypt (.ok 0) "k:1:v", .timerFire, .callEncrypt]
    rfl rfl rfl rfl
    (by
      intro e he
      simp only [List.mem_cons, List.not_mem_nil, or_false] at he
      rcases he with h | h | h | h <;> subst h <;> exact ⟨by simp, by simp⟩)
  exact ⟨h.2.1, h.2.2.2⟩

/-! ### Connection pool lemmas -/

theorem findClient_remove (cache : List (EndpointKey × Nat)) (k : EndpointKey) :
    findClient (removeClient cache k) k = none := by
  induction cache with
  | nil => rfl
  | cons e rest ih =>
    by_cases hek : e.1 = k
    · simpa [removeClient, List.filter_cons, hek] using ih
    · simpa [removeClient, List.filter_cons, hek, findClient] using ih

theorem findClient_none_not_mem (cache : List (EndpointKey × Nat)) (k : EndpointKey) :
    findClient cache k = none → k ∉ cache.map Prod.fst := by
  induction cache with
  | nil => intro _; simp
  | cons e rest ih =>
    obtain ⟨k', a⟩ := e
    intro h
    simp only [findClient] at h
    by_cases he : k' = k
    · simp [he] at h
    · rw [if_neg he] at h
      simp only [List.map_cons, List.mem_cons]
      push_neg
      exact ⟨fun hk => he hk.symm, ih h⟩

theorem connectAgentLazy_miss (s : PoolState) (k : EndpointKey)
    (h : findClient s.cache k = none) :
    connectAgentLazy s k =
      (s.attempts.length,
       { s with cache := (k, s.attempts.length) :: s.cache,
                attempts := s.attempts ++ [none] }) := by
  rw [connectAgentLazy]
  split
  · rfl
  · rename_i a heq
    rw [h] at heq
    cases heq

theorem connectAgentLazy_pending (s : PoolState) (k : EndpointKey) (a : Nat)
    (h : findClient s.cache k = some a) (hst : statusOf s a = none) :
    connectAgentLazy s k = (a, s) := by
  rw [connectAgentLazy]
  split
  · rename_i heq
    rw [h] at heq
    cases heq
  · rename_i a' heq
    rw [h] at heq
    injection heq with heq'
    subst heq'
    simp [hst]

theorem connectAgentLazy_open (s : PoolState) (k : EndpointKey) (a : Nat) (pc : PoolConn)
    (h : findClient s.cache k = some a) (hst : statusOf s a = some pc)
    (hc : pc.closed = false) :
    connectAgentLazy s k = (a, s) := by
  rw [connectAgentLazy]
  split
  · rename_i heq
    rw [h] at heq
    cases heq
  · rename_i a' heq
    rw [h] at heq
    injection heq with heq'
    subst heq'
    simp [hst, hc]

theorem connectAgentLazy_closed (s : PoolState) (k : EndpointKey) (a : Nat) (pc : PoolConn)
    (h : findClient s.cache k = some a) (hst : statusOf s a = some pc)
    (hc : pc.closed = true) :
    connectAgentLazy s k =
      connectAgentLazy { s with cache := removeClient s.cache k } k := by
  rw [connectAgentLazy]
  split
  · rename_i heq
    rw [h] at heq
    cases heq
  · rename_i a' heq
    rw [h] at heq
    injection heq with heq'
    subst heq'
    simp [hst, hc]

theorem connectAgentLazy_nodup_aux (s : PoolState) (k : EndpointKey)
    (h : (s.cache.map Prod.fst).Nodup) :
    ((connectAgentLazy s k).2.cache.map Prod.fst).Nodup := by
  rcases hfind : findClient s.cache k with _ | a
  · rw [connectAgentLazy_miss s k hfind]
    simp only [List.map_cons]
    exact List.nodup_cons.mpr ⟨findClient_none_not_mem _ _ hfind, h⟩
  · rcases hst : statusOf s a with _ | pc
    · rw [connectAgentLazy_pending s k a hfind hst]; exact h
    · rcases hc : pc.closed with _ | _
      · rw [connectAgentLazy_open s k a pc hfind hst hc]; exact h
      · rw [connectAgentLazy_closed s k a pc hfind hst hc]
        have hrm : ((removeClient s.cache k).map Prod.fst).Nodup := by
          have hsub :
              List.Sublist ((removeClient s.cache k).map Prod.fst)
                (s.cache.map Prod.fst) :=
            (List.filter_sublist _).map _
          exact h.sublist hsub
        have hf : findClient (removeClient s.cache k) k = none := findClient_remove _ _
        rw [connectAgentLazy_miss _ k hf]
        simp only [List.map_cons]
        exact List.nodup_cons.mpr ⟨findClient_none_not_mem _ _ hf, hrm⟩

theorem iterateLazy_fixed (n : Nat) (s1 : PoolState) (k : EndpointKey) (a : Nat)
    (hfix : connectAgentLazy s1 k = (a, s1)) :
    iterateLazy n s1 k = (List.replicate n a, s1) := by
  induction n with
  | zero => rfl
  | succ m ih => simp [iterateLazy, hfix, ih, List.replicate_succ]

/-- C1: a `connectAgentLazy` miss hands out the next `connectAgent` attempt
and stores it in the cache in the same synchronous step (still pending);
any number of further lookups for the same identity made before that
attempt resolves receive the very same attempt and leave the pool
untouched, so exactly one underlying connection is begun; and every call
preserves "at most one cache entry per endpoint identity". -/
theorem pool_shares_single_attempt (s : PoolState) (k : EndpointKey) (n : Nat)
    (hmiss : findClient s.cache k = none) :
    (connectAgentLazy s k).1 = s.attempts.length ∧
    findClient (connectAgentLazy s k).2.cache k = some ((connectAgentLazy s k).1) ∧
    statusOf (connectAgentLazy s k).2 ((connectAgentLazy s k).1) = none ∧
    (connectAgentLazy s k).2.attempts.length = s.attempts.length + 1 ∧
    (iterateLazy n (connectAgentLazy s k).2 k).1 =
      List.replicate n ((connectAgentLazy s k).1) ∧
    (iterateLazy n (connectAgentLazy s k).2 k).2 = (connectAgentLazy s k).2 ∧
    (∀ (s' : PoolState) (k' : EndpointKey), (s'.cache.map Prod.fst).Nodup →
      ((connectAgentLazy s' k').2.cache.map Prod.fst).Nodup) := by
  have hm := connectAgentLazy_miss s k hmiss
  have hfind1 : findClient (connectAgentLazy s k).2.cache k =
      some ((connectAgentLazy s k).1) := by
    rw [hm]; simp [findClient]
  have hstat1 : statusOf (connectAgentLazy s k).2 ((connectAgentLazy s k).1) = none := by
    rw [hm]; simp [statusOf, List.getElem?_concat_length]
  have hfix : connectAgentLazy (connectAgentLazy s k).2 k =
      ((connectAgentLazy s k).1, (connectAgentLazy s k).2) :=
    connectAgentLazy_pending _ k _ hfind1 hstat1
  have hiter := iterateLazy_fixed n (connectAgentLazy s k).2 k ((connectAgentLazy s k).1) hfix
  refine ⟨by rw [hm], hfind1, hstat1, by rw [hm]; simp, by rw [hiter], by rw [hiter],
    fun s' k' h' => connectAgentLazy_nodup_aux s' k' h'⟩

/-- Witness for C1: from an empty pool, the first lookup for port 9 hands
out attempt 0 and three further lookups all receive attempt 0 while only
one attempt exists. -/
theorem pool_shares_single_attempt_witness :
    (connectAgentLazy ⟨[], [], 0⟩ (Sum.inl 9)).1 = 0 ∧
    (iterateLazy 3 (connectAgentLazy ⟨[], [], 0⟩ (Sum.inl 9)).2 (Sum.inl 9)).1 =
      [0, 0, 0] ∧
    (connectAgentLazy ⟨[], [], 0⟩ (Sum.inl 9)).2.attempts.length = 1 := by
  have h := pool_shares_single_attempt ⟨[], [], 0⟩ (Sum.inl 9) 3 rfl
  refine ⟨h.1, ?_, h.2.2.2.1⟩
  rw [h.2.2.2.2.1, h.1]
  rfl

/-- C5: when the cached entry's resolved connection reports closed, the
lookup evicts it and hands out a fresh, still-pending attempt stored under
the same identity — never the closed connection — and resolving that
attempt yields a connection distinct from the closed one. -/
theorem pool_reconnect_on_closed (s : PoolState) (k : EndpointKey) (a : Nat)
    (pc : PoolConn)
    (hfind : findClient s.cache k = some a) (hst : statusOf s a = some pc)
    (hclosed : pc.closed = true) (ha : a < s.attempts.length)
    (hcid : pc.connId < s.nextConn) :
    (connectAgentLazy s k).1 = s.attempts.length ∧
    (connectAgentLazy s k).1 ≠ a ∧
    findClient (connectAgentLazy s k).2.cache k = some ((connectAgentLazy s k).1) ∧
    statusOf (connectAgentLazy s k).2 ((connectAgentLazy s k).1) = none ∧
    statusOf (resolveAttempt (connectAgentLazy s k).2 ((connectAgentLazy s k).1))
        ((connectAgentLazy s k).1) = some ⟨s.nextConn, false⟩ ∧
    s.nextConn ≠ pc.connId := by
  have hstep := connectAgentLazy_closed s k a pc hfind hst hclosed
  have hf : findClient (removeClient s.cache k) k = none := findClient_remove _ _
  have hm := connectAgentLazy_miss { s with cache := removeClient s.cache k } k hf
  rw [hstep, hm]
  refine ⟨rfl, by simpa using Nat.ne_of_gt ha, by simp [findClient], ?_, ?_, by omega⟩
  · simp [statusOf, List.getElem?_concat_length]
  · simp only [resolveAttempt, statusOf]
    rw [List.getElem?_set_self (by simp)]

/-- Witness for C5 at the pool state reached by: lookup for port 9 from an
empty pool, resolution of attempt 0 to connection 0, external close of
connection 0 — the next lookup yields attempt 1, resolving to the distinct
open connection 1. -/
theorem pool_reconnect_on_closed_witness :
    (connectAgentLazy ⟨[(Sum.inl 9, 0)], [some ⟨0, true⟩], 1⟩ (Sum.inl 9)).1 = 1 ∧
    (connectAgentLazy ⟨[(Sum.inl 9, 0)], [some ⟨0, true⟩], 1⟩ (Sum.inl 9)).1 ≠ 0 ∧
    findClient
      (connectAgentLazy ⟨[(Sum.inl 9, 0)], [some ⟨0, true⟩], 1⟩ (Sum.inl 9)).2.cache
      (Sum.inl 9) = some 1 ∧
    statusOf
      (resolveAttempt
        (connectAgentLazy ⟨[(Sum.inl 9, 0)], [some ⟨0, true⟩], 1⟩ (Sum.inl 9)).2 1) 1 =
      some ⟨1, false⟩ ∧ (1 : Nat) ≠ 0 := by
  have h := pool_reconnect_on_closed ⟨[(Sum.inl 9, 0)], [some ⟨0, true⟩], 1⟩
    (Sum.inl 9) 0 ⟨0, true⟩ (by decide) rfl rfl (by decide) (by decide)
  have e1 : (connectAgentLazy ⟨[(Sum.inl 9, 0)], [some ⟨0, true⟩], 1⟩ (Sum.inl 9)).1 = 1 :=
    h.1
  have h3 := h.2.2.1
  have h4 := h.2.2.2.2.1
  rw [e1] at h3 h4
  exact ⟨e1, h.2.1, h3, h4, h.2.2.2.2.2⟩

/-! ### `disconnectAgents` -/

theorem disconnectAgents_ok_of_no_close_failure
    (entries : List (EndpointKey × CachedClient))
    (h : ∀ e ∈ entries, e.2 ≠ CachedClient.conn true) :
    (disconnectAgents entries).2.1 = .ok () ∧
    (disconnectAgents entries).2.2 = [] ∧
    (∀ e ∈ entries, DisconnectEvent.evicted e.1 ∈ (disconnectAgents entries).1) ∧
    (∀ k, (k, CachedClient.conn false) ∈ entries →
      DisconnectEvent.closed k ∈ (disconnectAgents entries).1) := by
  induction entries with
  | nil => simp [disconnectAgents]
  | cons e rest ih =>
    obtain ⟨k, cl⟩ := e
    have hrest := ih fun e' he' => h e' (List.mem_cons_of_mem _ he')
    cases cl with
    | rejected =>
      simp only [disconnectAgents]
      refine ⟨hrest.1, hrest.2.1, ?_, ?_⟩
      · intro e' he'
        rcases List.mem_cons.mp he' with rfl | hm
        · exact List.mem_cons_self _ _
        · exact List.mem_cons_of_mem _ (hrest.2.2.1 e' hm)
      · intro k' hk'
        rcases List.mem_cons.mp hk' with heq | hm
        · cases heq
        · exact List.mem_cons_of_mem _ (hrest.2.2.2 k' hm)
    | conn b =>
      have hb : b = false := by
        have hc := h (k, .conn b) (List.mem_cons_self _ _)
        cases b
        · rfl
        · exact absurd rfl hc
      subst hb
      simp only [disconnectAgents, Bool.false_eq_true, if_false]
      refine ⟨hrest.1, hrest.2.1, ?_, ?_⟩
      · intro e' he'
        rcases List.mem_cons.mp he' with rfl | hm
        · exact List.mem_cons_self _ _
        · exact List.mem_cons_of_mem _ (List.mem_cons_of_mem _ (hrest.2.2.1 e' hm))
      · intro k' hk'
        rcases List.mem_cons.mp hk' with heq | hm
        · cases heq
          exact List.mem_cons_of_mem _ (List.mem_cons_self _ _)
        · exact List.mem_cons_of_mem _ (List.mem_cons_of_mem _ (hrest.2.2.2 k' hm))

theorem disconnectAgents_evict_before_close
    (entries : List (EndpointKey × CachedClient)) (k : EndpointKey)
    (h : DisconnectEvent.closed k ∈ (disconnectAgents entries).1) :
    List.Sublist [DisconnectEvent.evicted k, DisconnectEvent.closed k]
      (disconnectAgents entries).1 := by
  induction entries with
  | nil => simp [disconnectAgents] at h
  | cons e rest ih =>
    obtain ⟨k', cl⟩ := e
    cases cl with
    | rejected =>
      simp only [disconnectAgents] at h ⊢
      have hm : DisconnectEvent.closed k ∈ (disconnectAgents rest).1 := by
        rcases List.mem_cons.mp h with hh | hh
        · cases hh
        · exact hh
      exact (ih hm).cons _
    | conn b =>
      cases b with
      | true => simp [disconnectAgents] at h
      | false =>
        simp only [disconnectAgents, Bool.false_eq_true, if_false] at h ⊢
        rcases List.mem_cons.mp h with hh | hh
        · cases hh
        · rcases List.mem_cons.mp hh with hh2 | hh2
          · cases hh2
            exact List.Sublist.cons₂ _ (List.Sublist.cons₂ _ (List.nil_sublist _))
          · exact ((ih hh2).cons _).cons _

theorem disconnectAgents_error_iff (entries : List (EndpointKey × CachedClient)) :
    (disconnectAgents entries).2.1 = .error () ↔
      ∃ e ∈ entries, e.2 = CachedClient.conn true := by
  induction entries with
  | nil => simp [disconnectAgents]
  | cons e rest ih =>
    obtain ⟨k, cl⟩ := e
    cases cl with
    | rejected => simp [disconnectAgents, ih]
    | conn b =>
      cases b with
      | true => simp [disconnectAgents]
      | false => simp [disconnectAgents, ih]

/-- C3 (amended): `disconnectAgents` evicts each visited entry before
closing its connection and swallows rejected connection *attempts*; when
every close succeeds the whole cache is emptied, every entry evicted and
every established connection closed, and the call succeeds.  But a failure
of an individual connection's `close()` propagates out of
`disconnectAgents` (the call fails with exactly that rejection), and the
entries after the failing one are neither evicted nor closed — they remain
in the cache. -/
theorem disconnectAgents_behaviour (entries : List (EndpointKey × CachedClient)) :
    ((∀ e ∈ entries, e.2 ≠ CachedClient.conn true) →
      (disconnectAgents entries).2.1 = .ok () ∧
      (disconnectAgents entries).2.2 = [] ∧
      (∀ e ∈ entries, DisconnectEvent.evicted e.1 ∈ (disconnectAgents entries).1) ∧
      (∀ k, (k, CachedClient.conn false) ∈ entries →
        DisconnectEvent.closed k ∈ (disconnectAgents entries).1)) ∧
    (∀ k, DisconnectEvent.closed k ∈ (disconnectAgents entries).1 →
      List.Sublist [DisconnectEvent.evicted k, DisconnectEvent.closed k]
        (disconnectAgents entries).1) ∧
    ((disconnectAgents entries).2.1 = .error () ↔
      ∃ e ∈ entries, e.2 = CachedClient.conn true) :=
  ⟨fun h => disconnectAgents_ok_of_no_close_failure entries h,
   fun k hk => disconnectAgents_evict_before_close entries k hk,
   disconnectAgents_error_iff entries⟩

/-- Counterexample to C3 as stated: with a first connection whose `close()`
rejects and a second healthy one, `disconnectAgents` itself fails, the
second connection is never closed, and its entry remains in the cache. -/
theorem disconnectAgents_close_failure_not_swallowed :
    (disconnectAgents
      [(Sum.inl 1, CachedClient.conn true), (Sum.inl 2, CachedClient.conn false)]).2.1 =
      .error () ∧
    (disconnectAgents
      [(Sum.inl 1, CachedClient.conn true), (Sum.inl 2, CachedClient.conn false)]).2.2 =
      [(Sum.inl 2, CachedClient.conn false)] ∧
    DisconnectEvent.closed (Sum.inl 2) ∉
      (disconnectAgents
        [(Sum.inl 1, CachedClient.conn true), (Sum.inl 2, CachedClient.conn false)]).1 := by
  refine ⟨rfl, rfl, ?_⟩
  intro hm
  simp [disconnectAgents] at hm

/-- Witness for C3 (amended): a rejected attempt followed by a healthy
connection — everything is evicted, the connection closed after its
eviction, and the call succeeds. -/
theorem disconnectAgents_behaviour_witness :
    (disconnectAgents
      [(Sum.inl 1, CachedClient.rejected), (Sum.inl 2, CachedClient.conn false)]).2.1 =
      .ok () ∧
    (disconnectAgents
      [(Sum.inl 1, CachedClient.rejected), (Sum.inl 2, CachedClient.conn false)]).2.2 =
      [] ∧
    DisconnectEvent.closed (Sum.inl 2) ∈
      (disconnectAgents
        [(Sum.inl 1, CachedClient.rejected), (Sum.inl 2, CachedClient.conn false)]).1 ∧
    List.Sublist [DisconnectEvent.evicted (Sum.inl 2), DisconnectEvent.closed (Sum.inl 2)]
      (disconnectAgents
        [(Sum.inl 1, CachedClient.rejected), (Sum.inl 2, CachedClient.conn false)]).1 := by
  have h := disconnectAgents_behaviour
    [(Sum.inl 1, CachedClient.rejected), (Sum.inl 2, CachedClient.conn false)]
  have h1 := h.1 (by
    intro e he
    rcases List.mem_cons.mp he with rfl | he2
    · simp
    · rcases List.mem_cons.mp he2 with rfl | he3
      · simp
      · cases he3)
  have hc := h1.2.2.2 (Sum.inl 2)
    (List.mem_cons_of_mem _ (List.mem_cons_self _ _))
  exact ⟨h1.1, h1.2.1, hc, h.2.1 _ hc⟩

/-! ### Server close override -/

/-- C6: for both the port/TLS branch and the unix-socket branch (whose
patched closes coincide), `close()` closes the RPC layer first and the raw
listener only after that; on success both are torn down and the close
returns; a failure closing the listener is surfaced to the caller. -/
theorem server_close_sequencing (s : AgentServer) :
    serverCloseSocket s = serverClosePort s ∧
    (serverClosePort s).2.head? = some .rpcClosed ∧
    ((serverClosePort s).2 = [.rpcClosed, .listenerClosed] ∨
      (serverClosePort s).2 = [.rpcClosed]) ∧
    (∀ h, rawServerClose s.http = .ok h →
      (serverClosePort s).1 = .ok ⟨false, h⟩ ∧
      (serverClosePort s).2 = [.rpcClosed, .listenerClosed]) ∧
    (∀ e, rawServerClose s.http = .error e →
      (serverClosePort s).1 = .error e ∧ (serverClosePort s).2 = [.rpcClosed]) := by
  refine ⟨rfl, ?_, ?_, ?_, ?_⟩
  · cases hr : rawServerClose s.http <;> simp [serverClosePort, superClose, hr]
  · cases hr : rawServerClose s.http <;> simp [serverClosePort, superClose, hr]
  · intro h hh
    constructor <;> simp [serverClosePort, superClose, hh]
  · intro e he
    constructor <;> simp [serverClosePort, superClose, he]

/-- Witness for C6: a running listener is fully closed after the RPC layer;
an injected listener-close failure is surfaced verbatim. -/
theorem server_close_sequencing_witness :
    (serverClosePort ⟨true, ⟨true, none⟩⟩).1 = .ok ⟨false, ⟨false, none⟩⟩ ∧
    (serverClosePort ⟨true, ⟨true, none⟩⟩).2 = [.rpcClosed, .listenerClosed] ∧
    (serverClosePort ⟨true, ⟨true, some "boom"⟩⟩).1 = .error "boom" ∧
    (serverClosePort ⟨true, ⟨true, some "boom"⟩⟩).2 = [.rpcClosed] := by
  have h1 := (server_close_sequencing ⟨true, ⟨true, none⟩⟩).2.2.2.1 ⟨false, none⟩ rfl
  have h2 := (server_close_sequencing ⟨true, ⟨true, some "boom"⟩⟩).2.2.2.2 "boom" rfl
  exact ⟨h1.1, h1.2, h2.1, h2.2⟩

/-- Counterexample to C7 as stated: after a successful `close()`, a second
`close()` does not complete successfully — the patched close reruns the raw
listener close, which calls back with a server-not-running error that the
close surfaces. -/
theorem server_close_not_idempotent :
    (serverClosePort ⟨true, ⟨true, none⟩⟩).1 = .ok ⟨false, ⟨false, none⟩⟩ ∧
    (serverClosePort ⟨false, ⟨false, none⟩⟩).1 = .error "Server is not running." ∧
    (serverCloseSocket ⟨false, ⟨false, none⟩⟩).1 = .error "Server is not running." :=
  ⟨rfl, rfl, rfl⟩

/-- C7 (amended): the server's `close()` is not idempotent: after a
successful `close()`, calling `close()` again re-closes the RPC layer and
re-attempts the raw listener close, which fails with a server-not-running
error that the second `close()` surfaces instead of completing as a no-op. -/
theorem server_close_second_call_fails (s : AgentServer)
    (hrun : s.http.listening = true) (herr : s.http.closeErr = none) :
    (serverClosePort s).1 = .ok ⟨false, { s.http with listening := false }⟩ ∧
    (serverClosePort ⟨false, { s.http with listening := false }⟩).1 =
      .error "Server is not running." ∧
    (serverCloseSocket ⟨false, { s.http with listening := false }⟩).1 =
      .error "Server is not running." := by
  refine ⟨?_, ?_, ?_⟩
  · simp [serverClosePort, superClose, rawServerClose, hrun, herr]
  · simp [serverClosePort, superClose, rawServerClose]
  · simp [serverCloseSocket, superClose, rawServerClose]

/-- Witness for C7 (amended) at a freshly started server. -/
theorem server_close_second_call_fails_witness :
    (serverClosePort ⟨true, ⟨true, none⟩⟩).1 = .ok ⟨false, ⟨false, none⟩⟩ ∧
    (serverClosePort ⟨false, ⟨false, none⟩⟩).1 = .error "Server is not running." :=
  ⟨(server_close_second_call_fails ⟨true, ⟨true, none⟩⟩ rfl rfl).1,
   (server_close_second_call_fails ⟨true, ⟨true, none⟩⟩ rfl rfl).2.1⟩

end SecretAgent
